import Mathlib

/-!
Shallow embedding of the match-telemetry aggregation pipeline of `fe.py`
(esports scouting dashboard): the team identity resolver, the series filter,
and the four analyzers (`analyze_player_weapons`, `analyze_map_preferences`,
`analyze_map_characters`, `analyze_opponent_character_impact`), together with
theorems settling the specification claims about them.

Python dictionaries / `collections.Counter` / `defaultdict` are embedded as
insertion-ordered association lists (`List (String × α)`) with a
default-aware update operation, mirroring Python's insertion-order
semantics.  Optional / possibly-missing attributes are embedded as `Option`.
Numeric telemetry counts are embedded as `Nat` (the data model requires
non-negative accumulators); averages are exact rationals with Python's
`round` (banker's rounding) applied where the source applies it.
-/

namespace Scout

/-! ## Association-list embedding of Python dicts -/

/-- Lookup in an insertion-ordered association list (Python `dict.get`). -/
def alGet {α : Type} (l : List (String × α)) (k : String) : Option α :=
  match l with
  | [] => none
  | (k', v) :: rest => if k' = k then some v else alGet rest k

/-- `defaultdict`-style update: apply `f` to the value stored at `k`
(defaulting to `d`), keeping insertion order; a fresh key is appended. -/
def alMod {α : Type} (l : List (String × α)) (k : String) (d : α) (f : α → α) :
    List (String × α) :=
  match l with
  | [] => [(k, f d)]
  | (k', v) :: rest => if k' = k then (k', f v) :: rest else (k', v) :: alMod rest k d f

/-- Lookup with default (Python `defaultdict` read access). -/
def alGetD {α : Type} (l : List (String × α)) (k : String) (d : α) : α :=
  (alGet l k).getD d

/-- Python `dict[k] = v` (overwrite, keeping the original position of `k`). -/
def alSet {α : Type} (l : List (String × α)) (k : String) (v : α) : List (String × α) :=
  alMod l k v (fun _ => v)

/-- Append a name if it is not already present (embedding of `set.add`,
with deterministic first-occurrence order). -/
def insertIfNew (l : List String) (k : String) : List String :=
  if k ∈ l then l else l ++ [k]

/-! ## Python string tests -/

/-- Python truthiness of a string: non-empty. -/
def pyTruthy (s : String) : Bool := !s.isEmpty

/-- Python `s.startswith(pre)`. -/
def pyStartsWith (s pre : String) : Bool := decide (pre.data <+: s.data)

/-- Python `sub in s` (substring containment). -/
def pyIn (sub s : String) : Bool := decide (sub.data <:+: s.data)

/-- The team-name match inlined in `analyze_player_weapons` and
`analyze_map_characters`:
`team.name == t or team.name.startswith(t) or t in team.name`. -/
def inlineMatch (team_name target_name : String) : Bool :=
  team_name == target_name || pyStartsWith team_name target_name ||
    pyIn target_name team_name

/-- `fe.py`'s `_is_target_team`: the team identity resolver.  Returns
`false` when either name is falsy (empty), otherwise the inline match. -/
def is_target_team (team_name target_name : String) : Bool :=
  if !pyTruthy team_name || !pyTruthy target_name then false
  else inlineMatch team_name target_name

/-! ## Data model (read-only inputs, from the GraphQL client shapes) -/

/-- One entry of a player's weapon-kill tally (`weaponKills` items). -/
structure WeaponKill where
  weapon_name : Option String
  count : Nat
deriving DecidableEq, Repr

/-- A player snapshot at game or segment granularity.  `character` is the
character's name when a character with a name is attached (`none` collapses
"no character attribute / character is None / no name attribute"). -/
structure Player where
  name : String
  character : Option String
  kills : Option Nat
  damage_dealt : Option Nat
  weapon_kills : Option (List WeaponKill)
deriving DecidableEq, Repr

/-- A team snapshot at game or segment granularity.  `name = none` embeds a
snapshot without a usable `name` attribute; `players = none` one without a
`players` attribute. -/
structure TeamSnapshot where
  name : Option String
  side : Option String
  players : Option (List Player)
deriving DecidableEq, Repr

/-- One round. -/
structure Segment where
  teams : List TeamSnapshot
deriving DecidableEq, Repr

/-- One game (map) of a series.  `map` is the map's name when present. -/
structure Game where
  map : Option String
  teams : List TeamSnapshot
  segments : List Segment
deriving DecidableEq, Repr

/-- The drafting team reference of a draft action. -/
structure Drafter where
  id : Nat
deriving DecidableEq, Repr

/-- One map-draft action.  `type = none` collapses "no type attribute /
type is None"; `draftable_name = none` collapses "no draftable attribute /
draftable is None / draftable has no name attribute / name is None". -/
structure DraftAction where
  drafter : Option Drafter
  type : Option String
  draftable_name : Option String
deriving DecidableEq, Repr

/-- The resolved state of one series.  `title = none` collapses "no title /
no name_shortened attribute". -/
structure SeriesState where
  title : Option String
  draft_actions : List DraftAction
  games : List Game
deriving DecidableEq, Repr

/-- One fetched series record; `series_state = none` means the series could
not be resolved and is skipped. -/
structure SeriesRecord where
  series_state : Option SeriesState
deriving DecidableEq, Repr

/-- The series filter: only series whose title short-code is `"val"` are
analyzed (the guard repeated at the top of every analyzer loop). -/
def isVal (s : SeriesRecord) : Bool :=
  match s.series_state with
  | none => false
  | some st => st.title == some "val"

/-! ## Counter utilities (`collections.Counter`) -/

/-- Total of all counts in a counter (`sum(counter.values())`). -/
def ctrTotal (l : List (String × Nat)) : Nat := l.foldl (fun a p => a + p.2) 0

/-- Insert into a list sorted descending by count, after every entry with a
strictly larger count and before the first entry with count `≤` (so an
earlier-inserted entry stays ahead of later ties: Python's stable sort). -/
def insertDesc (p : String × Nat) : List (String × Nat) → List (String × Nat)
  | [] => [p]
  | q :: rest => if q.2 ≤ p.2 then p :: q :: rest else q :: insertDesc p rest

/-- `Counter.most_common()`: entries sorted by count descending, ties kept
in insertion order (Python's `sorted` is stable). -/
def sortDesc : List (String × Nat) → List (String × Nat)
  | [] => []
  | p :: rest => insertDesc p (sortDesc rest)

/-! ## Python `round` (banker's rounding on exact rationals) -/

/-- Floor of a rational as an integer (computable). -/
def ratFloor (q : ℚ) : ℤ := Int.fdiv q.num q.den

/-- Python's built-in `round` to an integer: round half to even. -/
def pyRound (q : ℚ) : ℤ :=
  let f := ratFloor q
  if q - f < 1/2 then f
  else if 1/2 < q - f then f + 1
  else if f % 2 = 0 then f else f + 1

/-- Python `round(x, d)` for `d` decimal digits. -/
def pyRoundTo (d : Nat) (q : ℚ) : ℚ := (pyRound (q * 10 ^ d) : ℚ) / 10 ^ d

/-! ## `analyze_map_preferences` -/

/-- Running accumulator of the draft-action loop. -/
structure MapPrefAcc where
  total_actions : Nat
  map_bans : List (String × Nat)
  map_picks : List (String × Nat)
deriving DecidableEq, Repr

/-- One iteration of the draft-action loop: actions drafted by the scouted
team id are counted; when type and draftable are present and the map name
is truthy, a `ban` or `pick` increments the per-map counter. -/
def draftStep (tid : Nat) (acc : MapPrefAcc) (a : DraftAction) : MapPrefAcc :=
  match a.drafter with
  | none => acc
  | some d =>
    if d.id = tid then
      let acc1 : MapPrefAcc := { acc with total_actions := acc.total_actions + 1 }
      match a.type, a.draftable_name with
      | some ty, some m =>
        if pyTruthy m then
          if ty = "ban" then { acc1 with map_bans := alMod acc1.map_bans m 0 (· + 1) }
          else if ty = "pick" then { acc1 with map_picks := alMod acc1.map_picks m 0 (· + 1) }
          else acc1
        else acc1
      | _, _ => acc1
    else acc

/-- Output of `analyze_map_preferences`. -/
structure MapPrefResult where
  total_actions : Nat
  map_bans : List (String × Nat)
  map_picks : List (String × Nat)
  most_banned_maps : List (String × Nat)
  most_picked_maps : List (String × Nat)
  least_banned_maps : List (String × Nat)
  total_bans : Nat
  total_picks : Nat
deriving DecidableEq, Repr

/-- One series of the draft-action analysis: unsupported titles are
skipped, otherwise every draft action is folded. -/
def mapPrefSeriesStep (tid : Nat) (acc : MapPrefAcc) (s : SeriesRecord) : MapPrefAcc :=
  if isVal s then
    match s.series_state with
    | none => acc
    | some st => st.draft_actions.foldl (draftStep tid) acc
  else acc

/-- `fe.py` `analyze_map_preferences`: map ban/pick preferences from draft
actions of the scouted team (the unused `months_back` cache-key parameter
is dropped). -/
def analyze_map_preferences (series_details : List SeriesRecord)
    (target_team_id : Nat) : MapPrefResult :=
  let acc := series_details.foldl (mapPrefSeriesStep target_team_id) ⟨0, [], []⟩
  { total_actions := acc.total_actions
    map_bans := acc.map_bans
    map_picks := acc.map_picks
    most_banned_maps := if acc.map_bans.isEmpty then [] else (sortDesc acc.map_bans).take 5
    most_picked_maps := if acc.map_picks.isEmpty then [] else (sortDesc acc.map_picks).take 5
    least_banned_maps := if acc.map_bans.isEmpty then [] else (sortDesc acc.map_bans).reverse.take 5
    total_bans := ctrTotal acc.map_bans
    total_picks := ctrTotal acc.map_picks }

/-! ## `analyze_map_characters` -/

/-- The team loop of `analyze_map_characters`: teams without a name or not
matching the scouted team are skipped; the first matching team's players
are taken and the loop `break`s. -/
def mapCharsTeamScan (target : String) : List TeamSnapshot → Option (List Player)
  | [] => none
  | t :: rest =>
    match t.name with
    | none => mapCharsTeamScan target rest
    | some n =>
      if inlineMatch n target then some (t.players.getD [])
      else mapCharsTeamScan target rest

/-- One game of `analyze_map_characters`: requires a truthy map name, then
counts each truthy character name of the first matching team's players
under that map. -/
def mapCharsGameStep (target : String) (acc : List (String × List (String × Nat)))
    (g : Game) : List (String × List (String × Nat)) :=
  match g.map with
  | none => acc
  | some map_name =>
    if pyTruthy map_name then
      match mapCharsTeamScan target g.teams with
      | none => acc
      | some players =>
        players.foldl
          (fun acc p =>
            match p.character with
            | some char_name =>
              if pyTruthy char_name then
                alMod acc map_name [] (fun ctr => alMod ctr char_name 0 (· + 1))
              else acc
            | none => acc)
          acc
    else acc

/-- One series of `analyze_map_characters`: unsupported titles and series
without games are skipped. -/
def mapCharsSeriesStep (target : String) (acc : List (String × List (String × Nat)))
    (s : SeriesRecord) : List (String × List (String × Nat)) :=
  if isVal s then
    match s.series_state with
    | none => acc
    | some st =>
      if st.games.isEmpty then acc
      else st.games.foldl (mapCharsGameStep target) acc
  else acc

/-- `fe.py` `analyze_map_characters`: per map, how often the scouted team
fielded each character. -/
def analyze_map_characters (series_details : List SeriesRecord)
    (target_team_name : String) : List (String × List (String × Nat)) :=
  let mc := series_details.foldl (mapCharsSeriesStep target_team_name) []
  mc.map (fun p => (p.1, sortDesc p.2))

/-! ## `analyze_opponent_character_impact` -/

/-- Per-character running totals (`char_stats` defaultdict values). -/
structure CharStats where
  games_played : Nat
  total_kills : Nat
  total_damage : Nat
  total_rounds : Nat
deriving DecidableEq, Repr

/-- One row of the opponent-character-impact output. -/
structure CharImpact where
  character : String
  games_played : Nat
  avg_kills_per_game : ℚ
  avg_damage_per_round : ℚ
  total_kills : Nat
  total_damage : Nat
  total_rounds : Nat
deriving DecidableEq, Repr

/-- The opponent-selection loop: the first team with a name that does not
resolve to the scouted team (`break` on the first hit). -/
def findOpponentTeam (target : String) : List TeamSnapshot → Option TeamSnapshot
  | [] => none
  | t :: rest =>
    match t.name with
    | none => findOpponentTeam target rest
    | some n =>
      if is_target_team n target then findOpponentTeam target rest else some t

/-- `player_to_char`: opponent player name → character name for this game
(later entries overwrite, keeping the original dict position). -/
def playerToChar (players : List Player) : List (String × String) :=
  players.foldl
    (fun m p =>
      match p.character with
      | some cn => alSet m p.name cn
      | none => m)
    []

/-- The segment team loop: the first named team not resolving to the
scouted team contributes its players, then the loop `break`s. -/
def oppSegTeamScan (target : String) : List TeamSnapshot → Option (List Player)
  | [] => none
  | t :: rest =>
    match t.name with
    | none => oppSegTeamScan target rest
    | some n =>
      if is_target_team n target then oppSegTeamScan target rest
      else some (t.players.getD [])

/-- One segment's contribution to `player_kills`/`player_damage`. -/
def oppSegmentStep (target : String)
    (kd : List (String × Nat) × List (String × Nat)) (seg : Segment) :
    List (String × Nat) × List (String × Nat) :=
  match oppSegTeamScan target seg.teams with
  | none => kd
  | some players =>
    players.foldl
      (fun kd p =>
        (alMod kd.1 p.name 0 (· + p.kills.getD 0),
         alMod kd.2 p.name 0 (· + p.damage_dealt.getD 0)))
      kd

/-- Fold one `(player, character)` pair into the per-character stats: one
game played, the player's summed kills and damage for this game, and
`rounds_this_game` rounds. -/
def oppCharUpdate (kd : List (String × Nat) × List (String × Nat))
    (rounds_this_game : Nat) (acc : List (String × CharStats))
    (pc : String × String) : List (String × CharStats) :=
  let k := alGetD kd.1 pc.1 0
  let d := alGetD kd.2 pc.1 0
  alMod acc pc.2 ⟨0, 0, 0, 0⟩
    (fun s => ⟨s.games_played + 1, s.total_kills + k,
               s.total_damage + d, s.total_rounds + rounds_this_game⟩)

/-- One game of `analyze_opponent_character_impact`: games with fewer than
two teams, or no resolvable opponent, or an opponent without a players
attribute, or an empty player-to-character map contribute nothing.
`rounds_this_game` is the number of segments of the game. -/
def oppGameStep (target : String) (acc : List (String × CharStats)) (g : Game) :
    List (String × CharStats) :=
  if g.teams.length < 2 then acc
  else
    match findOpponentTeam target g.teams with
    | none => acc
    | some opp =>
      match opp.players with
      | none => acc
      | some players =>
        let p2c := playerToChar players
        if p2c.isEmpty then acc
        else
          let kd := g.segments.foldl (oppSegmentStep target) ([], [])
          let rounds_this_game := g.segments.length
          p2c.foldl (oppCharUpdate kd rounds_this_game) acc

/-- Build one output row from a character's totals: average kills per game
(rounded to 1 digit) and average damage per round with the `or 1`
zero-denominator guard (rounded to 0 digits). -/
def mkCharImpact (char_name : String) (s : CharStats) : CharImpact :=
  let g := s.games_played
  let total_rounds := if s.total_rounds = 0 then 1 else s.total_rounds
  { character := char_name
    games_played := g
    avg_kills_per_game := pyRoundTo 1 ((s.total_kills : ℚ) / (g : ℚ))
    avg_damage_per_round := pyRoundTo 0 ((s.total_damage : ℚ) / (total_rounds : ℚ))
    total_kills := s.total_kills
    total_damage := s.total_damage
    total_rounds := s.total_rounds }

/-- Sort key: (avg kills per game, avg damage per round). -/
def impactKey (e : CharImpact) : ℚ × ℚ := (e.avg_kills_per_game, e.avg_damage_per_round)

/-- Strict lexicographic comparison of sort keys. -/
def keyLtB (a b : ℚ × ℚ) : Bool :=
  decide (a.1 < b.1) || (decide (a.1 = b.1) && decide (a.2 < b.2))

/-- Stable descending insertion by `impactKey` (Python `list.sort` with
`reverse=True` keeps earlier rows ahead of equal-key rows). -/
def impactInsert (e : CharImpact) : List CharImpact → List CharImpact
  | [] => [e]
  | q :: rest =>
    if keyLtB (impactKey e) (impactKey q) then q :: impactInsert e rest
    else e :: q :: rest

/-- Stable descending sort of the output rows. -/
def impactSort : List CharImpact → List CharImpact
  | [] => []
  | e :: rest => impactInsert e (impactSort rest)

/-- One series of `analyze_opponent_character_impact`: unsupported titles
and series without games are skipped. -/
def oppSeriesStep (target : String) (acc : List (String × CharStats))
    (s : SeriesRecord) : List (String × CharStats) :=
  if isVal s then
    match s.series_state with
    | none => acc
    | some st =>
      if st.games.isEmpty then acc
      else st.games.foldl (oppGameStep target) acc
  else acc

/-- `fe.py` `analyze_opponent_character_impact`: per opponent character,
aggregated kills/damage/rounds, ranked by threat. -/
def analyze_opponent_character_impact (series_details : List SeriesRecord)
    (target_team_name : String) : List CharImpact :=
  let char_stats := series_details.foldl (oppSeriesStep target_team_name) []
  let result := char_stats.filterMap
    (fun p => if p.2.games_played = 0 then none else some (mkCharImpact p.1 p.2))
  impactSort result

/-! ## `analyze_player_weapons` -/

/-- Kills and round count for one side of one player. -/
structure SideData where
  kills : Nat
  rounds : Nat
deriving DecidableEq, Repr

/-- The two per-side accumulators of one player. -/
structure SideAcc where
  attacker : SideData
  defender : SideData
deriving DecidableEq, Repr

/-- Damage-dealt accumulator of one player (per-round, segment data). -/
structure DmgData where
  total_damage_dealt : Nat
  rounds : Nat
deriving DecidableEq, Repr

/-- The four accumulators of `analyze_player_weapons`. -/
structure WeaponsAcc where
  player_weapons : List (String × List (String × Nat))
  player_series_count : List (String × Nat)
  player_kills_by_side : List (String × SideAcc)
  player_damage_dealt : List (String × DmgData)
deriving DecidableEq, Repr

/-- Add every player name of a roster to the series-player set. -/
def addRosterPlayers (acc : List String) (ps : List Player) : List String :=
  ps.foldl (fun acc p => insertIfNew acc p.name) acc

/-- Add one team's roster to the series-player set when the team has a
name matching the scouted team. -/
def addOneTeamPlayers (target : String) (acc : List String) (t : TeamSnapshot) :
    List String :=
  match t.name with
  | some n =>
    if inlineMatch n target then addRosterPlayers acc (t.players.getD [])
    else acc
  | none => acc

/-- Add the rosters of every team in the list whose name matches the
scouted team. -/
def addMatchingTeamPlayers (target : String) (acc : List String)
    (ts : List TeamSnapshot) : List String :=
  ts.foldl (addOneTeamPlayers target) acc

/-- First pass over one game: union into the series-player set the names on
every matching game-level roster, then on every matching segment-level
roster. -/
def collectGamePlayers (target : String) (acc : List String) (g : Game) : List String :=
  let acc1 := addMatchingTeamPlayers target acc g.teams
  g.segments.foldl (fun acc seg => addMatchingTeamPlayers target acc seg.teams) acc1

/-- The set of scouted-team players appearing in a series (first pass). -/
def seriesPlayers (target : String) (st : SeriesState) : List String :=
  st.games.foldl (collectGamePlayers target) []

/-- Fold one weapon-kill entry into a player's weapon counter: only
entries with a truthy weapon name and a nonzero count contribute. -/
def addOneWeaponKill (player_name : String)
    (pw : List (String × List (String × Nat))) (wk : WeaponKill) :
    List (String × List (String × Nat)) :=
  match wk.weapon_name with
  | some wn =>
    if pyTruthy wn && wk.count != 0 then
      alMod pw player_name [] (fun ctr => alMod ctr wn 0 (· + wk.count))
    else pw
  | none => pw

/-- Fold one weapon-kill list into a player's weapon counter. -/
def addWeaponKills (pw : List (String × List (String × Nat))) (player_name : String)
    (wks : List WeaponKill) : List (String × List (String × Nat)) :=
  wks.foldl (addOneWeaponKill player_name) pw

/-- Second pass, game-level rosters: weapon kills of players that appeared
in the series. -/
def gameLevelStep (target : String) (sp : List String) (acc : WeaponsAcc) (g : Game) :
    WeaponsAcc :=
  g.teams.foldl
    (fun acc t =>
      match t.name with
      | some n =>
        if inlineMatch n target then
          (t.players.getD []).foldl
            (fun acc p =>
              if p.name ∈ sp then
                match p.weapon_kills with
                | some wks =>
                  { acc with player_weapons := addWeaponKills acc.player_weapons p.name wks }
                | none => acc
              else acc)
            acc
        else acc
      | none => acc)
    acc

/-- The side string of a segment-level team:
`(getattr(team, 'side', None) or '').lower()`, kept only when it is
`attacker` or `defender`. -/
def segSide (t : TeamSnapshot) : Option String :=
  let s := (t.side.getD "").toLower
  if s = "attacker" || s = "defender" then some s else none

/-- Second pass, segment-level rosters: additional weapon kills, kills by
side (one round per segment appearance), damage dealt per round. -/
def segLevelStep (target : String) (sp : List String) (acc : WeaponsAcc) (g : Game) :
    WeaponsAcc :=
  g.segments.foldl
    (fun acc seg =>
      seg.teams.foldl
        (fun acc t =>
          match t.name with
          | some n =>
            if inlineMatch n target then
              let side := segSide t
              (t.players.getD []).foldl
                (fun acc p =>
                  if p.name ∈ sp then
                    let acc1 :=
                      match p.weapon_kills with
                      | some wks =>
                        { acc with player_weapons :=
                            addWeaponKills acc.player_weapons p.name wks }
                      | none => acc
                    let acc2 :=
                      match side, p.kills with
                      | some sd, some k =>
                        { acc1 with player_kills_by_side :=
                            (alMod acc1.player_kills_by_side p.name ⟨⟨0, 0⟩, ⟨0, 0⟩⟩
                              (fun sa =>
                                if sd = "attacker" then
                                  { sa with attacker :=
                                      ⟨sa.attacker.kills + k, sa.attacker.rounds + 1⟩ }
                                else
                                  { sa with defender :=
                                      ⟨sa.defender.kills + k, sa.defender.rounds + 1⟩ })) }
                      | _, _ => acc1
                    match p.damage_dealt with
                    | some dd =>
                      { acc2 with player_damage_dealt :=
                          (alMod acc2.player_damage_dealt p.name ⟨0, 0⟩
                            (fun d => ⟨d.total_damage_dealt + dd, d.rounds + 1⟩)) }
                    | none => acc2
                  else acc)
                acc
            else acc
          | none => acc)
        acc)
    acc

/-- Second pass over one game: game-level rosters first, then segments. -/
def weaponsGameStep (target : String) (sp : List String) (acc : WeaponsAcc) (g : Game) :
    WeaponsAcc :=
  segLevelStep target sp (gameLevelStep target sp acc g) g

/-- One series of `analyze_player_weapons`: unsupported titles and series
without games are skipped; otherwise the series-player set is collected,
each of its players' series count is incremented once, and the second pass
runs over every game. -/
def weaponsSeriesStep (target : String) (acc : WeaponsAcc) (s : SeriesRecord) :
    WeaponsAcc :=
  if isVal s then
    match s.series_state with
    | none => acc
    | some st =>
      if st.games.isEmpty then acc
      else
        let sp := seriesPlayers target st
        let acc1 := { acc with player_series_count :=
          (sp.foldl (fun c n => alMod c n 0 (· + 1)) acc.player_series_count) }
        st.games.foldl (weaponsGameStep target sp) acc1
  else acc

/-- One side's output: kills, rounds, and average kills per round (0.0 when
no rounds were recorded for that side; rounded to 2 digits otherwise). -/
structure SideOut where
  kills : Nat
  rounds : Nat
  avg_kills : ℚ
deriving DecidableEq, Repr

/-- Per-player analysis rendered into the result dict. -/
structure PlayerStats where
  series_played : Nat
  total_kills : Nat
  preferred_weapon : Option String
  preferred_weapon_kills : Nat
  weapon_breakdown : List (String × Nat)
  all_weapons : List (String × Nat)
  side_attacker : SideOut
  side_defender : SideOut
  total_damage_dealt : Nat
  rounds_with_damage_data : Nat
  avg_damage_dealt_per_round : ℚ
deriving DecidableEq, Repr

/-- Render one side's accumulator. -/
def mkSideOut (d : SideData) : SideOut :=
  { kills := d.kills
    rounds := d.rounds
    avg_kills :=
      if d.rounds > 0 then pyRoundTo 2 ((d.kills : ℚ) / (d.rounds : ℚ)) else 0 }

/-- Render one player's stats from the four accumulators. -/
def mkPlayerStats (acc : WeaponsAcc) (player_name : String)
    (wc : List (String × Nat)) : PlayerStats :=
  let top_weapons := (sortDesc wc).take 3
  let sa := alGetD acc.player_kills_by_side player_name ⟨⟨0, 0⟩, ⟨0, 0⟩⟩
  let dmg := alGetD acc.player_damage_dealt player_name ⟨0, 0⟩
  { series_played := alGetD acc.player_series_count player_name 0
    total_kills := ctrTotal wc
    preferred_weapon := top_weapons.head?.map Prod.fst
    preferred_weapon_kills := (top_weapons.head?.map Prod.snd).getD 0
    weapon_breakdown := top_weapons
    all_weapons := wc
    side_attacker := mkSideOut sa.attacker
    side_defender := mkSideOut sa.defender
    total_damage_dealt := dmg.total_damage_dealt
    rounds_with_damage_data := dmg.rounds
    avg_damage_dealt_per_round :=
      if dmg.rounds > 0 then
        pyRoundTo 1 ((dmg.total_damage_dealt : ℚ) / (dmg.rounds : ℚ))
      else 0 }

/-- Output of `analyze_player_weapons`. -/
structure WeaponsResult where
  total_players_analyzed : Nat
  player_analysis : List (String × PlayerStats)
deriving DecidableEq, Repr

/-- `fe.py` `analyze_player_weapons`: per scouted-team player, weapon
preferences, series-played count, side-split kills and per-round damage.
Only players whose total weapon-kill count is positive are reported. -/
def analyze_player_weapons (series_details : List SeriesRecord)
    (target_team_name : String) : WeaponsResult :=
  let acc := series_details.foldl (weaponsSeriesStep target_team_name) ⟨[], [], [], []⟩
  let player_analysis := acc.player_weapons.filterMap
    (fun p => if ctrTotal p.2 > 0 then some (p.1, mkPlayerStats acc p.1 p.2) else none)
  { total_players_analyzed := player_analysis.length
    player_analysis := player_analysis }

/-! ## Memoization layer (`st.cache_data`) -/

/-- Cache lookup by argument key. -/
def cacheLookup {α β : Type} [DecidableEq α] : List (α × β) → α → Option β
  | [], _ => none
  | (a, b) :: rest, x => if a = x then some b else cacheLookup rest x

/-- A call through the `st.cache_data` memo layer: a hit returns the stored
result and leaves the cache unchanged; a miss computes the analyzer on the
unmodified input, stores the result, and returns it. -/
def cachedCall {α β : Type} [DecidableEq α] (f : α → β) (cache : List (α × β))
    (x : α) : β × List (α × β) :=
  match cacheLookup cache x with
  | some y => (y, cache)
  | none => (f x, (x, f x) :: cache)

/-! ## Concrete fixtures (spec scenarios and counterexamples) -/

/-- Scenario A, game-level stats of `aspas`: weapon totals sheriff 2 /
phantom 11. -/
def aspasGame : Player :=
  ⟨"aspas", none, none, none, some [⟨some "sheriff", 2⟩, ⟨some "phantom", 11⟩]⟩

/-- Scenario A, segment-level stats of `aspas`: 2 kills with sheriff. -/
def aspasSeg : Player :=
  ⟨"aspas", none, none, none, some [⟨some "sheriff", 2⟩]⟩

/-- Scenario A batch: one supported-title series, one game, one segment. -/
def scnA : List SeriesRecord :=
  [⟨some ⟨some "val", [],
    [⟨none, [⟨some "LOUD", none, some [aspasGame]⟩],
      [⟨[⟨some "LOUD", none, some [aspasSeg]⟩]⟩]⟩]⟩⟩]

/-- Scenario B batch: three draft actions, two by drafter 97. -/
def scnB : List SeriesRecord :=
  [⟨some ⟨some "val",
    [⟨some ⟨97⟩, some "ban", some "icebox"⟩,
     ⟨some ⟨81⟩, some "ban", some "corrode"⟩,
     ⟨some ⟨97⟩, some "pick", some "lotus"⟩], []⟩⟩]

/-- A game whose two teams both fail to resolve to scouted team `"ZZZ"`. -/
def cbC2 : List SeriesRecord :=
  [⟨some ⟨some "val", [],
    [⟨none, [⟨some "Alpha", none, some [⟨"p1", some "Jett", none, none, none⟩]⟩,
             ⟨some "Beta", none, some []⟩], []⟩]⟩⟩]

/-- A game with three teams, the second and third not resolving to the
scouted team `"LOUD"`. -/
def cbC2three : List SeriesRecord :=
  [⟨some ⟨some "val", [],
    [⟨none, [⟨some "LOUD", none, some []⟩,
             ⟨some "Alpha", none, some [⟨"p1", some "Jett", none, none, none⟩]⟩,
             ⟨some "Beta", none, some []⟩], []⟩]⟩⟩]

/-- A game whose opponent roster player plays Jett, with two segments in
which the opponent team does not appear at all. -/
def cbC3game : Game :=
  ⟨none, [⟨some "LOUD", none, some []⟩,
          ⟨some "NRG", none, some [⟨"x", some "Jett", none, none, none⟩]⟩],
    [⟨[]⟩, ⟨[]⟩]⟩

/-- A one-series batch holding `cbC3game`. -/
def cbC3 : List SeriesRecord := [⟨some ⟨some "val", [], [cbC3game]⟩⟩]

/-- A game-level team with an empty display name whose player has weapon
kills. -/
def cbC9 : List SeriesRecord :=
  [⟨some ⟨some "val", [],
    [⟨none, [⟨some "", none, some [⟨"p", none, none, none, some [⟨some "vandal", 3⟩]⟩]⟩],
      []⟩]⟩⟩]

/-- A scouted-team player with segment kills, side and damage data but no
weapon-kill entries anywhere. -/
def cbC10 : List SeriesRecord :=
  [⟨some ⟨some "val", [],
    [⟨none, [⟨some "LOUD", none, some [⟨"q", none, some 5, some 300, none⟩]⟩],
      [⟨[⟨some "LOUD", some "attacker", some [⟨"q", none, some 5, some 300, none⟩]⟩]⟩]⟩]⟩⟩]

/-! ## Specification-side predicates used in the claim statements -/

/-- Run an analyzer twice through the memo layer at the same key: the pair
of the two returned results. -/
def callTwice {α β : Type} [DecidableEq α] (f : α → β) (x : α) : β × β :=
  let r1 := cachedCall f [] x
  let r2 := cachedCall f r1.2 x
  (r1.1, r2.1)

/-- Does a (game- or segment-level) team snapshot belong to the scouted
team and list the given player name on its roster? -/
def teamHasPlayer (target name : String) (t : TeamSnapshot) : Bool :=
  match t.name with
  | some n => inlineMatch n target && (t.players.getD []).any (fun p => p.name == name)
  | none => false

/-- Does the player appear on a scouted-team roster of the game, at game
level or in some segment? -/
def gameHasPlayer (target name : String) (g : Game) : Bool :=
  g.teams.any (teamHasPlayer target name) ||
    g.segments.any (fun seg => seg.teams.any (teamHasPlayer target name))

/-- Does the player's name appear on the scouted team's roster in some
game-level or segment-level team of the series? -/
def seriesHasPlayer (target name : String) (s : SeriesRecord) : Bool :=
  match s.series_state with
  | none => false
  | some st => st.games.any (gameHasPlayer target name)

/-- A weapon-kill entry with a truthy weapon name and a nonzero count. -/
def wkQualifies (wk : WeaponKill) : Bool :=
  match wk.weapon_name with
  | some wn => pyTruthy wn && wk.count != 0
  | none => false

/-- Is the snapshot this player, carrying some qualifying weapon-kill
entry? -/
def playerHasQualifyingWK (name : String) (p : Player) : Bool :=
  p.name == name && (p.weapon_kills.getD []).any wkQualifies

/-- Does a scouted-team snapshot attribute a qualifying weapon-kill entry
to the player? -/
def teamAttributesWK (target name : String) (t : TeamSnapshot) : Bool :=
  match t.name with
  | some n => inlineMatch n target && (t.players.getD []).any (playerHasQualifyingWK name)
  | none => false

/-- Does some roster of the game attribute a qualifying weapon-kill entry
to the player? -/
def gameAttributesWK (target name : String) (g : Game) : Bool :=
  g.teams.any (teamAttributesWK target name) ||
    g.segments.any (fun seg => seg.teams.any (teamAttributesWK target name))

/-- Is some weapon-kill entry with a truthy weapon name and a nonzero
count attributed to the player anywhere in the batch (on a matching roster
of a processed series)? -/
def hasQualifyingWK (target name : String) (batch : List SeriesRecord) : Bool :=
  batch.any (fun s =>
    isVal s &&
      (match s.series_state with
       | none => false
       | some st => !st.games.isEmpty && st.games.any (gameAttributesWK target name)))

/-- The accumulated `total_rounds` of a character in the running stats. -/
def charTotalRounds (acc : List (String × CharStats)) (c : String) : Nat :=
  (alGetD acc c ⟨0, 0, 0, 0⟩).total_rounds

/-- Does a draft action increment the `(ty, m)` counter: drafter matches
the scouted team id, the type equals `ty`, and the draftable name is
truthy and equals `m`? -/
def draftActionCounted (tid : Nat) (ty m : String) (a : DraftAction) : Bool :=
  (match a.drafter with | some d => d.id == tid | none => false) &&
    a.type == some ty &&
    (match a.draftable_name with | some mn => pyTruthy mn && mn == m | none => false)

/-- The number of `(ty, m)`-counted draft actions a series contributes. -/
def seriesDraftCount (tid : Nat) (ty m : String) (s : SeriesRecord) : Nat :=
  if isVal s then
    match s.series_state with
    | none => 0
    | some st => st.draft_actions.countP (draftActionCounted tid ty m)
  else 0

/-! ## Association-list lemmas -/

theorem alGet_alMod_self {α : Type} (l : List (String × α)) (k : String) (d : α)
    (f : α → α) : alGet (alMod l k d f) k = some (f (alGetD l k d)) := by
  induction l with
  | nil => simp [alMod, alGet, alGetD]
  | cons p rest ih =>
    obtain ⟨k', v⟩ := p
    by_cases h : k' = k
    · subst h
      simp [alMod, alGet, alGetD]
    · simp [alMod, alGet, alGetD, h, ih]

theorem alGet_alMod_ne {α : Type} (l : List (String × α)) (k k' : String) (d : α)
    (f : α → α) (h : k' ≠ k) : alGet (alMod l k d f) k' = alGet l k' := by
  induction l with
  | nil =>
    have hne : ¬ k = k' := fun hh => h hh.symm
    simp [alMod, alGet, hne]
  | cons p rest ih =>
    obtain ⟨k'', v⟩ := p
    by_cases hk : k'' = k
    · subst hk
      have hne : ¬ k'' = k' := fun hh => h hh.symm
      simp [alMod, alGet, hne]
    · simp only [alMod, if_neg hk]
      by_cases hk' : k'' = k'
      · simp [alGet, hk']
      · simp [alGet, hk', ih]

theorem alGetD_alMod_self {α : Type} (l : List (String × α)) (k : String) (d : α)
    (f : α → α) : alGetD (alMod l k d f) k d = f (alGetD l k d) := by
  simp [alGetD, alGet_alMod_self]

theorem alGetD_alMod_ne {α : Type} (l : List (String × α)) (k k' : String) (d d' : α)
    (f : α → α) (h : k' ≠ k) : alGetD (alMod l k d f) k' d' = alGetD l k' d' := by
  simp [alGetD, alGet_alMod_ne _ _ _ _ _ h]

/-- A fold preserves a property preserved by each step. -/
theorem foldl_preserve {α β : Type} (P : α → Prop) {step : α → β → α} :
    ∀ (l : List β) (acc : α), (∀ acc x, x ∈ l → P acc → P (step acc x)) → P acc →
      P (l.foldl step acc)
  | [], _, _, hP => hP
  | x :: rest, acc, h, hP =>
    foldl_preserve P rest (step acc x)
      (fun a y hy => h a y (List.mem_cons_of_mem _ hy))
      (h acc x (List.mem_cons_self _ _) hP)

/-! ## Claim theorems -/

/-- C4: for every pair of non-empty strings, the team identity resolver
`_is_target_team` returns true if and only if the observed name equals the
scouted name, or the observed name starts with the scouted name, or the
scouted name is a substring of the observed name. -/
theorem c4_resolver_rule (observedName scoutedName : String)
    (h1 : observedName ≠ "") (h2 : scoutedName ≠ "") :
    is_target_team observedName scoutedName = true ↔
      (observedName = scoutedName ∨ scoutedName.data <+: observedName.data ∨
        scoutedName.data <:+: observedName.data) := by
  have h1' : observedName.isEmpty = false := by
    rw [Bool.eq_false_iff]
    intro hh
    exact h1 ((String.isEmpty_iff _).mp hh)
  have h2' : scoutedName.isEmpty = false := by
    rw [Bool.eq_false_iff]
    intro hh
    exact h2 ((String.isEmpty_iff _).mp hh)
  simp [is_target_team, pyTruthy, h1', h2', inlineMatch, pyStartsWith, pyIn,
    Bool.or_eq_true, decide_eq_true_iff, or_assoc]

/-- Witness for C4 at Scenario C's team names. -/
theorem c4_resolver_rule_witness :
    ("MIBR (1)" : String) ≠ "" ∧ ("MIBR" : String) ≠ "" ∧
      (is_target_team "MIBR (1)" "MIBR" = true ↔
        (("MIBR (1)" : String) = "MIBR" ∨
          ("MIBR" : String).data <+: ("MIBR (1)" : String).data ∨
          ("MIBR" : String).data <:+: ("MIBR (1)" : String).data)) :=
  ⟨by decide, by decide, c4_resolver_rule "MIBR (1)" "MIBR" (by decide) (by decide)⟩

/-- C9 counterexample: `_is_target_team` itself is false on two empty
strings, but the weapon analyzer's inlined match lacks the emptiness
guard, so with an empty scouted name it treats an empty-named team as the
scouted team: player "p" of the empty-named team is reported. -/
theorem c9_counterexample :
    is_target_team "" "" = false ∧
      (alGet (analyze_player_weapons cbC9 "").player_analysis "p").isSome = true := by
  constructor
  · rfl
  · with_unfolding_all decide

/-- C9 amended: the resolver returns false whenever either name is empty
(including two empty strings); the inlined analyzer match also rejects an
empty observed name whenever the scouted name is non-empty, but accepts
every observed name (the empty one included) when the scouted name is
empty, so the weapon and map-character analyzers treat an empty-named team
as scouted exactly when the scouted name is itself empty. -/
theorem c9_amended :
    (∀ s : String, is_target_team "" s = false ∧ is_target_team s "" = false) ∧
      (∀ t : String, t ≠ "" → inlineMatch "" t = false) ∧
      (∀ n : String, inlineMatch n "" = true) ∧
      (alGet (analyze_player_weapons cbC9 "").player_analysis "p").isSome = true := by
  have hempty : pyTruthy "" = false := by decide
  refine ⟨fun s => ⟨?_, ?_⟩, fun t ht => ?_, fun n => ?_, ?_⟩
  · simp [is_target_team, hempty]
  · simp [is_target_team, hempty]
  · have hd : t.data ≠ [] := by
      intro hh
      apply ht
      cases t
      simpa [String.ext_iff] using hh
    have h0 : ("" == t) = false := by
      rw [beq_eq_false_iff_ne]
      exact fun hh => ht hh.symm
    have h1 : pyStartsWith "" t = false := by
      simp [pyStartsWith, List.prefix_nil]
      exact hd
    have h2 : pyIn t "" = false := by
      simp [pyIn, List.infix_nil]
      exact hd
    simp [inlineMatch, h0, h1, h2]
  · simp [inlineMatch, pyStartsWith, List.nil_prefix]
  · with_unfolding_all decide

/-- Witness for C9 amended: the inlined match rejects an empty team name
against the non-empty scouted name "MIBR". -/
theorem c9_amended_witness : inlineMatch "" "MIBR" = false :=
  c9_amended.2.1 "MIBR" (by decide)

/-- C8: each of the four analyzers, run twice through the memoization
layer on the same unmodified batch and team identifier, returns identical
output; the analyzers are pure functions of their input batch, with no
accumulator surviving across calls. -/
theorem c8_analyzers_idempotent (batch : List SeriesRecord) (tname : String)
    (tid : Nat) :
    (callTwice (fun p : List SeriesRecord × String =>
        analyze_player_weapons p.1 p.2) (batch, tname)).1 =
      (callTwice (fun p : List SeriesRecord × String =>
        analyze_player_weapons p.1 p.2) (batch, tname)).2 ∧
    (callTwice (fun p : List SeriesRecord × Nat =>
        analyze_map_preferences p.1 p.2) (batch, tid)).1 =
      (callTwice (fun p : List SeriesRecord × Nat =>
        analyze_map_preferences p.1 p.2) (batch, tid)).2 ∧
    (callTwice (fun p : List SeriesRecord × String =>
        analyze_map_characters p.1 p.2) (batch, tname)).1 =
      (callTwice (fun p : List SeriesRecord × String =>
        analyze_map_characters p.1 p.2) (batch, tname)).2 ∧
    (callTwice (fun p : List SeriesRecord × String =>
        analyze_opponent_character_impact p.1 p.2) (batch, tname)).1 =
      (callTwice (fun p : List SeriesRecord × String =>
        analyze_opponent_character_impact p.1 p.2) (batch, tname)).2 := by
  refine ⟨?_, ?_, ?_, ?_⟩ <;> simp [callTwice, cachedCall, cacheLookup]

/-- C1 counterexample: on Scenario A's batch the weapon analyzer does not
report 13 total kills for "aspas". -/
theorem c1_counterexample :
    ¬ ((alGet (analyze_player_weapons scnA "LOUD").player_analysis "aspas").map
        (fun s => s.total_kills) = some 13) := by
  with_unfolding_all decide

/-- C1 amended: on Scenario A's batch the weapon analyzer reports total
kills = 15 for "aspas" (game-level sheriff 2 + phantom 11, plus the
segment-level sheriff 2 added again: the two sources are summed, so kills
present in both are double-counted) and preferred weapon "phantom". -/
theorem c1_amended :
    (alGet (analyze_player_weapons scnA "LOUD").player_analysis "aspas").map
        (fun s => (s.total_kills, s.preferred_weapon)) =
      some (15, some "phantom") := by
  with_unfolding_all decide

/-! ## Draft-action counter characterization (C7) -/

theorem draftStep_counter (tid : Nat) (m : String) (acc : MapPrefAcc) (a : DraftAction) :
    alGetD (draftStep tid acc a).map_bans m 0 =
      alGetD acc.map_bans m 0 + (if draftActionCounted tid "ban" m a then 1 else 0) ∧
    alGetD (draftStep tid acc a).map_picks m 0 =
      alGetD acc.map_picks m 0 + (if draftActionCounted tid "pick" m a then 1 else 0) := by
  rcases a with ⟨dr, ty, dn⟩
  rcases dr with _ | ⟨⟨did⟩⟩
  · simp [draftStep, draftActionCounted]
  · by_cases hid : did = tid
    · subst hid
      rcases ty with _ | ty
      · simp [draftStep, draftActionCounted]
      · rcases dn with _ | dn
        · simp [draftStep, draftActionCounted]
        · by_cases htr : pyTruthy dn
          · by_cases hban : ty = "ban"
            · subst hban
              by_cases hm : dn = m
              · subst hm
                refine ⟨?_, ?_⟩ <;>
                  simp [draftStep, draftActionCounted, htr, alGetD_alMod_self]
              · have hm' : m ≠ dn := fun hh => hm hh.symm
                refine ⟨?_, ?_⟩ <;>
                  simp [draftStep, draftActionCounted, htr, hm,
                    alGetD_alMod_ne _ _ _ _ _ _ hm']
            · by_cases hpick : ty = "pick"
              · subst hpick
                by_cases hm : dn = m
                · subst hm
                  refine ⟨?_, ?_⟩ <;>
                    simp [draftStep, draftActionCounted, htr, alGetD_alMod_self]
                · have hm' : m ≠ dn := fun hh => hm hh.symm
                  refine ⟨?_, ?_⟩ <;>
                    simp [draftStep, draftActionCounted, htr, hm,
                      alGetD_alMod_ne _ _ _ _ _ _ hm']
              · refine ⟨?_, ?_⟩ <;>
                  simp [draftStep, draftActionCounted, htr, hban, hpick]
          · refine ⟨?_, ?_⟩ <;> simp [draftStep, draftActionCounted, htr]
    · have hid' : (did == tid) = false := by
        rw [beq_eq_false_iff_ne]
        exact hid
      refine ⟨?_, ?_⟩ <;> simp [draftStep, draftActionCounted, hid, hid']

theorem foldDraft_counter (tid : Nat) (m : String) :
    ∀ (l : List DraftAction) (acc : MapPrefAcc),
      alGetD (l.foldl (draftStep tid) acc).map_bans m 0 =
        alGetD acc.map_bans m 0 + l.countP (draftActionCounted tid "ban" m) ∧
      alGetD (l.foldl (draftStep tid) acc).map_picks m 0 =
        alGetD acc.map_picks m 0 + l.countP (draftActionCounted tid "pick" m)
  | [], acc => by simp
  | a :: rest, acc => by
    obtain ⟨ih1, ih2⟩ := foldDraft_counter tid m rest (draftStep tid acc a)
    obtain ⟨h1, h2⟩ := draftStep_counter tid m acc a
    constructor
    · rw [List.foldl_cons, ih1, h1, List.countP_cons]
      by_cases hc : draftActionCounted tid "ban" m a <;> simp [hc] <;> omega
    · rw [List.foldl_cons, ih2, h2, List.countP_cons]
      by_cases hc : draftActionCounted tid "pick" m a <;> simp [hc] <;> omega

theorem mapPrefSeriesStep_counter (tid : Nat) (m : String) (acc : MapPrefAcc)
    (s : SeriesRecord) :
    alGetD (mapPrefSeriesStep tid acc s).map_bans m 0 =
      alGetD acc.map_bans m 0 + seriesDraftCount tid "ban" m s ∧
    alGetD (mapPrefSeriesStep tid acc s).map_picks m 0 =
      alGetD acc.map_picks m 0 + seriesDraftCount tid "pick" m s := by
  by_cases hv : isVal s
  · rcases s with ⟨ss⟩
    rcases ss with _ | st
    · simp [isVal] at hv
    · obtain ⟨h1, h2⟩ := foldDraft_counter tid m st.draft_actions acc
      exact ⟨by simp [mapPrefSeriesStep, seriesDraftCount, hv, h1],
             by simp [mapPrefSeriesStep, seriesDraftCount, hv, h2]⟩
  · simp [mapPrefSeriesStep, seriesDraftCount, hv]

theorem mapPrefFold_counter (tid : Nat) (m : String) :
    ∀ (l : List SeriesRecord) (acc : MapPrefAcc),
      alGetD (l.foldl (mapPrefSeriesStep tid) acc).map_bans m 0 =
        alGetD acc.map_bans m 0 + (l.map (seriesDraftCount tid "ban" m)).sum ∧
      alGetD (l.foldl (mapPrefSeriesStep tid) acc).map_picks m 0 =
        alGetD acc.map_picks m 0 + (l.map (seriesDraftCount tid "pick" m)).sum
  | [], acc => by simp
  | s :: rest, acc => by
    obtain ⟨ih1, ih2⟩ := mapPrefFold_counter tid m rest (mapPrefSeriesStep tid acc s)
    obtain ⟨h1, h2⟩ := mapPrefSeriesStep_counter tid m acc s
    constructor
    · rw [List.foldl_cons, ih1, h1]
      simp
      omega
    · rw [List.foldl_cons, ih2, h2]
      simp
      omega

/-- C7: on Scenario B's batch (draft actions
`[(97, ban, icebox), (81, ban, corrode), (97, pick, lotus)]`, scouted team
id 97) the map draft analyzer reports 2 total actions, one ban of icebox
(the most-banned map) and one pick of lotus (the most-picked map); and in
general each per-map ban/pick counter counts exactly the draft actions
whose drafter id matches the scouted team and whose type and truthy
draftable name match that counter. -/
theorem c7_map_draft_scenario :
    ((analyze_map_preferences scnB 97).total_actions = 2 ∧
     (analyze_map_preferences scnB 97).map_bans = [("icebox", 1)] ∧
     (analyze_map_preferences scnB 97).map_picks = [("lotus", 1)] ∧
     (analyze_map_preferences scnB 97).most_banned_maps = [("icebox", 1)] ∧
     (analyze_map_preferences scnB 97).most_picked_maps = [("lotus", 1)]) ∧
    (∀ (batch : List SeriesRecord) (tid : Nat) (m : String),
      alGetD (analyze_map_preferences batch tid).map_bans m 0 =
        (batch.map (seriesDraftCount tid "ban" m)).sum ∧
      alGetD (analyze_map_preferences batch tid).map_picks m 0 =
        (batch.map (seriesDraftCount tid "pick" m)).sum) := by
  constructor
  · refine ⟨?_, ?_, ?_, ?_, ?_⟩ <;> decide
  · intro batch tid m
    obtain ⟨h1, h2⟩ := mapPrefFold_counter tid m batch ⟨0, [], []⟩
    constructor
    · simpa [analyze_map_preferences, alGetD, alGet] using h1
    · simpa [analyze_map_preferences, alGetD, alGet] using h2

/-! ## Opponent selection (C2) -/

theorem findOpponentTeam_eq_none (target : String) :
    ∀ (ts : List TeamSnapshot),
      (∀ t ∈ ts, ∀ n, t.name = some n → is_target_team n target = true) →
      findOpponentTeam target ts = none
  | [], _ => rfl
  | t :: rest, h => by
    have hr := findOpponentTeam_eq_none target rest
      (fun t' ht' => h t' (List.mem_cons_of_mem _ ht'))
    rcases hn : t.name with _ | n
    · simp [findOpponentTeam, hn, hr]
    · have := h t (List.mem_cons_self _ _) n hn
      simp [findOpponentTeam, hn, this, hr]

/-- C2 counterexample: a game whose two teams both fail to resolve to the
scouted team ("ZZZ" is on neither roster) is not skipped — the first team
is taken as the opponent and its Jett player contributes a full row. -/
theorem c2_counterexample :
    (analyze_opponent_character_impact cbC2 "ZZZ").map
      (fun e => (e.character, e.games_played)) = [("Jett", 1)] := by
  with_unfolding_all decide

/-- C2 amended: a game contributes nothing when it has fewer than two
teams, or when every named team resolves to the scouted team; otherwise
the first named team that fails to resolve is processed as the opponent —
also in games with more than two teams, or when no team resolves to the
scouted team (then the first team is taken as the opponent).  Skipping is
per game; the rest of the series is still processed. -/
theorem c2_amended :
    (∀ (target : String) (acc : List (String × CharStats)) (g : Game),
      g.teams.length < 2 → oppGameStep target acc g = acc) ∧
    (∀ (target : String) (acc : List (String × CharStats)) (g : Game),
      (∀ t ∈ g.teams, ∀ n, t.name = some n → is_target_team n target = true) →
      oppGameStep target acc g = acc) ∧
    analyze_opponent_character_impact cbC2 "ZZZ" ≠ [] ∧
    analyze_opponent_character_impact cbC2three "LOUD" ≠ [] := by
  refine ⟨fun target acc g h => ?_, fun target acc g h => ?_, ?_, ?_⟩
  · simp [oppGameStep, h]
  · rw [oppGameStep, findOpponentTeam_eq_none target g.teams h]
    split <;> rfl
  · with_unfolding_all decide
  · with_unfolding_all decide

/-- Witness for C2 amended: a one-team game and a game whose only team is
the scouted team itself both contribute nothing. -/
theorem c2_amended_witness :
    oppGameStep "LOUD" [] ⟨none, [], []⟩ = [] ∧
    oppGameStep "LOUD" [] ⟨none, [⟨some "LOUD", none, some []⟩,
      ⟨some "LOUD", none, some []⟩], []⟩ = [] := by
  constructor
  · exact c2_amended.1 "LOUD" [] ⟨none, [], []⟩ (by decide)
  · refine c2_amended.2.1 "LOUD" []
      ⟨none, [⟨some "LOUD", none, some []⟩, ⟨some "LOUD", none, some []⟩], []⟩ ?_
    intro t ht n hn
    have : t = ⟨some "LOUD", none, some []⟩ := by
      rcases List.mem_cons.mp ht with h | h
      · exact h
      · simpa using h
    subst this
    have : n = "LOUD" := by
      simpa using hn.symm
    subst this
    decide

/-! ## Round counting and derived averages (C3, C6) -/

theorem oppCharUpdate_fold_rounds (kd : List (String × Nat) × List (String × Nat))
    (r : Nat) (c : String) :
    ∀ (l : List (String × String)) (acc : List (String × CharStats)),
      charTotalRounds (l.foldl (oppCharUpdate kd r) acc) c =
        charTotalRounds acc c + l.countP (fun pc => pc.2 == c) * r
  | [], acc => by simp
  | pc :: rest, acc => by
    rw [List.foldl_cons, oppCharUpdate_fold_rounds kd r c rest _, List.countP_cons]
    by_cases hc : pc.2 = c
    · subst hc
      simp only [oppCharUpdate, charTotalRounds, alGetD_alMod_self]
      simp
      ring
    · have hc' : c ≠ pc.2 := fun hh => hc hh.symm
      simp only [oppCharUpdate, charTotalRounds, alGetD_alMod_ne _ _ _ _ _ _ hc']
      simp [hc]

theorem mem_impactInsert {e x : CharImpact} :
    ∀ {l : List CharImpact}, x ∈ impactInsert e l → x = e ∨ x ∈ l := by
  intro l
  induction l with
  | nil => simpa [impactInsert] using fun h => Or.inl h
  | cons q rest ih =>
    simp only [impactInsert]
    split
    · intro hx
      rcases List.mem_cons.mp hx with h | h
      · exact Or.inr (List.mem_cons.mpr (Or.inl h))
      · rcases ih h with h' | h'
        · exact Or.inl h'
        · exact Or.inr (List.mem_cons.mpr (Or.inr h'))
    · intro hx
      rcases List.mem_cons.mp hx with h | h
      · exact Or.inl h
      · exact Or.inr h

theorem mem_impactSort {x : CharImpact} :
    ∀ {l : List CharImpact}, x ∈ impactSort l → x ∈ l := by
  intro l
  induction l with
  | nil => simp [impactSort]
  | cons e rest ih =>
    intro hx
    rcases mem_impactInsert hx with h | h
    · exact List.mem_cons.mpr (Or.inl h)
    · exact List.mem_cons.mpr (Or.inr (ih h))

/-- Every row of the opponent-impact output comes from a character's
accumulated stats with at least one game played, and its derived averages
follow the guarded formulas. -/
theorem impact_row_shape (batch : List SeriesRecord) (target : String)
    (e : CharImpact) (he : e ∈ analyze_opponent_character_impact batch target) :
    0 < e.games_played ∧
    e.avg_kills_per_game = pyRoundTo 1 ((e.total_kills : ℚ) / (e.games_played : ℚ)) ∧
    e.avg_damage_per_round =
      pyRoundTo 0 ((e.total_damage : ℚ) / ((max e.total_rounds 1 : Nat) : ℚ)) := by
  have he' := mem_impactSort (by simpa [analyze_opponent_character_impact] using he)
  obtain ⟨p, _, hp⟩ := List.mem_filterMap.mp he'
  by_cases hg : p.2.games_played = 0
  · simp [hg] at hp
  · rw [if_neg hg] at hp
    obtain rfl := Option.some_injective _ hp
    have hmax : (if p.2.total_rounds = 0 then 1 else p.2.total_rounds) =
        max p.2.total_rounds 1 := by
      rcases Nat.eq_zero_or_pos p.2.total_rounds with h0 | h0
      · simp [h0]
      · rw [if_neg (Nat.pos_iff_ne_zero.mp h0)]
        omega
    refine ⟨Nat.pos_of_ne_zero hg, ?_, ?_⟩
    · simp [mkCharImpact]
    · simp [mkCharImpact, hmax]

/-- C3 counterexample: in a game with two segments in which the opponent
team never appears, the opponent's Jett still accumulates 2 rounds (the
code counts all segments of the game, not segments containing the
opponent). -/
theorem c3_counterexample :
    (analyze_opponent_character_impact cbC3 "LOUD").map
      (fun e => (e.character, e.total_rounds)) = [("Jett", 2)] := by
  with_unfolding_all decide

/-- C3 amended: for each processed game, the per-character `total_rounds`
accumulator is incremented, per opponent roster player with that
character, by the total number of segments of the game — whether or not
the opponent team appears in those segments; the reported average damage
per round equals totalDamage / max(totalRounds, 1), rounded to the
nearest integer. -/
theorem c3_amended :
    (∀ (target : String) (acc : List (String × CharStats)) (g : Game)
        (opp : TeamSnapshot) (players : List Player),
      ¬ g.teams.length < 2 →
      findOpponentTeam target g.teams = some opp →
      opp.players = some players →
      playerToChar players ≠ [] →
      ∀ c, charTotalRounds (oppGameStep target acc g) c =
        charTotalRounds acc c +
          (playerToChar players).countP (fun pc => pc.2 == c) *
            g.segments.length) ∧
    (∀ (batch : List SeriesRecord) (target : String) (e : CharImpact),
      e ∈ analyze_opponent_character_impact batch target →
      e.avg_damage_per_round =
        pyRoundTo 0 ((e.total_damage : ℚ) / ((max e.total_rounds 1 : Nat) : ℚ))) := by
  constructor
  · intro target acc g opp players hlen hopp hp hne c
    rw [oppGameStep, if_neg hlen, hopp]
    simp only []
    rw [hp]
    simp only []
    rw [if_neg (by simpa [List.isEmpty_iff] using hne)]
    exact oppCharUpdate_fold_rounds _ _ c _ acc
  · intro batch target e he
    exact (impact_row_shape batch target e he).2.2

/-- Witness for C3 amended, at the counterexample game: Jett accumulates
1 × 2 rounds, and the single output row's average-damage field follows the
guarded formula. -/
theorem c3_amended_witness :
    charTotalRounds (oppGameStep "LOUD" [] cbC3game) "Jett" =
      charTotalRounds [] "Jett" +
        (playerToChar [⟨"x", some "Jett", none, none, none⟩]).countP
          (fun pc => pc.2 == "Jett") * cbC3game.segments.length ∧
    (⟨"Jett", 1, 0, 0, 0, 0, 2⟩ : CharImpact).avg_damage_per_round =
      pyRoundTo 0 (((⟨"Jett", 1, 0, 0, 0, 0, 2⟩ : CharImpact).total_damage : ℚ) /
        ((max (⟨"Jett", 1, 0, 0, 0, 0, 2⟩ : CharImpact).total_rounds 1 : Nat) : ℚ)) := by
  constructor
  · exact c3_amended.1 "LOUD" [] cbC3game
      ⟨some "NRG", none, some [⟨"x", some "Jett", none, none, none⟩]⟩
      [⟨"x", some "Jett", none, none, none⟩]
      (by decide) (by with_unfolding_all decide) rfl (by decide) "Jett"
  · exact c3_amended.2 cbC3 "LOUD" ⟨"Jett", 1, 0, 0, 0, 0, 2⟩
      (by with_unfolding_all decide)

/-! ## Weapon-analysis output rows (C5, C6, C10) -/

theorem alGet_weapons_analysis (acc : WeaponsAcc) :
    ∀ (pw : List (String × List (String × Nat))) {name : String} {st : PlayerStats},
      alGet (pw.filterMap (fun p =>
        if ctrTotal p.2 > 0 then some (p.1, mkPlayerStats acc p.1 p.2) else none))
        name = some st →
      ∃ wc, st = mkPlayerStats acc name wc ∧ 0 < ctrTotal wc
  | [], name, st => by simp [alGet]
  | (k, v) :: rest, name, st => by
    intro h
    rw [List.filterMap_cons] at h
    by_cases hc : ctrTotal v > 0
    · rw [if_pos hc] at h
      by_cases hk : k = name
      · subst hk
        simp only [alGet, if_pos rfl] at h
        exact ⟨v, (Option.some_injective _ h).symm, hc⟩
      · simp only [alGet, if_neg hk] at h
        exact alGet_weapons_analysis acc rest h
    · rw [if_neg hc] at h
      exact alGet_weapons_analysis acc rest h

/-- C6: every average with a zero denominator is output as 0 — per-side
average kills per round is 0 when the side has no recorded rounds, average
damage per round is 0 when no round-level damage data exists — and the
opponent analyzer's divisions are guarded: every output row has a positive
games-played count and a positive `max(totalRounds, 1)` denominator. -/
theorem c6_zero_denominator_guards :
    (∀ (batch : List SeriesRecord) (target name : String) (ar dr nr : Nat)
        (ak dk nd : ℚ),
      (alGet (analyze_player_weapons batch target).player_analysis name).map
          (fun st => (st.side_attacker.rounds, st.side_attacker.avg_kills,
            st.side_defender.rounds, st.side_defender.avg_kills,
            st.rounds_with_damage_data, st.avg_damage_dealt_per_round)) =
        some (ar, ak, dr, dk, nr, nd) →
      (ar = 0 → ak = 0) ∧ (dr = 0 → dk = 0) ∧ (nr = 0 → nd = 0)) ∧
    (∀ (batch : List SeriesRecord) (target : String) (e : CharImpact),
      e ∈ analyze_opponent_character_impact batch target →
      0 < e.games_played ∧ 0 < max e.total_rounds 1) := by
  constructor
  · intro batch target name ar dr nr ak dk nd h
    rcases hget : alGet (analyze_player_weapons batch target).player_analysis name with
      _ | st
    · rw [hget] at h
      simp at h
    · rw [hget] at h
      obtain ⟨wc, rfl, _⟩ := alGet_weapons_analysis _ _
        (by simpa [analyze_player_weapons] using hget)
      simp only [Option.map_some', Option.some.injEq, Prod.mk.injEq] at h
      obtain ⟨h1, h2, h3, h4, h5, h6⟩ := h
      subst h1 h2 h3 h4 h5 h6
      refine ⟨fun h0 => ?_, fun h0 => ?_, fun h0 => ?_⟩
      · simp only [mkPlayerStats, mkSideOut] at h0 ⊢
        rw [if_neg (by omega)]
      · simp only [mkPlayerStats, mkSideOut] at h0 ⊢
        rw [if_neg (by omega)]
      · simp only [mkPlayerStats, mkSideOut] at h0 ⊢
        rw [if_neg (by omega)]
  · intro batch target e he
    refine ⟨(impact_row_shape batch target e he).1, ?_⟩
    omega

/-- Witness for C6: `aspas` in Scenario A has no recorded rounds on either
side and no damage rounds, and all three averages are 0; the Jett row of
the C3 batch has one game played. -/
theorem c6_witness :
    (((0 : Nat) = 0 → (0 : ℚ) = 0) ∧ ((0 : Nat) = 0 → (0 : ℚ) = 0) ∧
      ((0 : Nat) = 0 → (0 : ℚ) = 0)) ∧
    (0 < (⟨"Jett", 1, 0, 0, 0, 0, 2⟩ : CharImpact).games_played ∧
      0 < max (⟨"Jett", 1, 0, 0, 0, 0, 2⟩ : CharImpact).total_rounds 1) := by
  constructor
  · exact c6_zero_denominator_guards.1 scnA "LOUD" "aspas" 0 0 0 0 0 0
      (by with_unfolding_all decide)
  · exact c6_zero_denominator_guards.2 cbC3 "LOUD" ⟨"Jett", 1, 0, 0, 0, 0, 2⟩
      (by with_unfolding_all decide)

/-! ## Series-player set lemmas (C5) -/

theorem mem_insertIfNew {l : List String} {k x : String} :
    x ∈ insertIfNew l k → x ∈ l ∨ x = k := by
  unfold insertIfNew
  split
  · exact fun h => Or.inl h
  · intro h
    rcases List.mem_append.mp h with h | h
    · exact Or.inl h
    · right
      simpa using h

theorem insertIfNew_nodup {l : List String} {k : String} (h : l.Nodup) :
    (insertIfNew l k).Nodup := by
  unfold insertIfNew
  split
  · exact h
  · next hk =>
    rw [List.nodup_append]
    refine ⟨h, List.nodup_singleton k, ?_⟩
    intro x hx hk'
    simp at hk'
    exact hk (hk' ▸ hx)

theorem addRosterPlayers_mem {name : String} :
    ∀ (ps : List Player) (acc : List String),
      name ∈ addRosterPlayers acc ps →
      name ∈ acc ∨ ps.any (fun p => p.name == name)
  | [], _, h => Or.inl h
  | p :: rest, acc, h => by
    rcases addRosterPlayers_mem rest (insertIfNew acc p.name) h with h' | h'
    · rcases mem_insertIfNew h' with h'' | h''
      · exact Or.inl h''
      · right
        simp [List.any_cons, h'']
    · right
      simp [List.any_cons, h']

theorem addRosterPlayers_nodup :
    ∀ (ps : List Player) (acc : List String), acc.Nodup →
      (addRosterPlayers acc ps).Nodup
  | [], _, h => h
  | _ :: rest, _, h => addRosterPlayers_nodup rest _ (insertIfNew_nodup h)

theorem addOneTeamPlayers_mem {target name : String} {acc : List String}
    {t : TeamSnapshot} (h : name ∈ addOneTeamPlayers target acc t) :
    name ∈ acc ∨ teamHasPlayer target name t = true := by
  unfold addOneTeamPlayers at h
  split at h
  · next n hn =>
    split at h
    · next hm =>
      rcases addRosterPlayers_mem _ _ h with h' | h'
      · exact Or.inl h'
      · right
        simp [teamHasPlayer, hn, hm, h']
    · exact Or.inl h
  · exact Or.inl h

theorem addOneTeamPlayers_nodup {target : String} {acc : List String}
    {t : TeamSnapshot} (h : acc.Nodup) : (addOneTeamPlayers target acc t).Nodup := by
  unfold addOneTeamPlayers
  split
  · split
    · exact addRosterPlayers_nodup _ _ h
    · exact h
  · exact h

theorem addMatchingTeamPlayers_mem {target name : String} :
    ∀ (ts : List TeamSnapshot) (acc : List String),
      name ∈ addMatchingTeamPlayers target acc ts →
      name ∈ acc ∨ ts.any (teamHasPlayer target name)
  | [], _, h => Or.inl h
  | t :: rest, acc, h => by
    rcases addMatchingTeamPlayers_mem rest (addOneTeamPlayers target acc t) h with h' | h'
    · rcases addOneTeamPlayers_mem h' with h'' | h''
      · exact Or.inl h''
      · right
        simp [List.any_cons, h'']
    · right
      simp [List.any_cons, h']

theorem addMatchingTeamPlayers_nodup {target : String} :
    ∀ (ts : List TeamSnapshot) (acc : List String), acc.Nodup →
      (addMatchingTeamPlayers target acc ts).Nodup
  | [], _, h => h
  | _ :: rest, _, h =>
    addMatchingTeamPlayers_nodup rest _ (addOneTeamPlayers_nodup h)

theorem segTeamsFold_mem {target name : String} :
    ∀ (segs : List Segment) (acc : List String),
      name ∈ segs.foldl (fun acc seg => addMatchingTeamPlayers target acc seg.teams) acc →
      name ∈ acc ∨ segs.any (fun seg => seg.teams.any (teamHasPlayer target name))
  | [], _, h => Or.inl h
  | seg :: rest, acc, h => by
    rcases segTeamsFold_mem rest (addMatchingTeamPlayers target acc seg.teams) h with h' | h'
    · rcases addMatchingTeamPlayers_mem _ _ h' with h'' | h''
      · exact Or.inl h''
      · right
        simp [List.any_cons, h'']
    · right
      simp [List.any_cons, h']

theorem segTeamsFold_nodup {target : String} :
    ∀ (segs : List Segment) (acc : List String), acc.Nodup →
      (segs.foldl (fun acc seg => addMatchingTeamPlayers target acc seg.teams) acc).Nodup
  | [], _, h => h
  | _ :: rest, _, h =>
    segTeamsFold_nodup rest _ (addMatchingTeamPlayers_nodup _ _ h)

theorem collectGamePlayers_mem {target name : String} {acc : List String} {g : Game}
    (h : name ∈ collectGamePlayers target acc g) :
    name ∈ acc ∨ gameHasPlayer target name g = true := by
  unfold collectGamePlayers at h
  rcases segTeamsFold_mem _ _ h with h' | h'
  · rcases addMatchingTeamPlayers_mem _ _ h' with h'' | h''
    · exact Or.inl h''
    · right
      simp [gameHasPlayer, h'']
  · right
    simp [gameHasPlayer, h']

theorem collectGamePlayers_nodup {target : String} {acc : List String} {g : Game}
    (h : acc.Nodup) : (collectGamePlayers target acc g).Nodup :=
  segTeamsFold_nodup _ _ (addMatchingTeamPlayers_nodup _ _ h)

theorem gamesFold_mem {target name : String} :
    ∀ (gs : List Game) (acc : List String),
      name ∈ gs.foldl (collectGamePlayers target) acc →
      name ∈ acc ∨ gs.any (gameHasPlayer target name)
  | [], _, h => Or.inl h
  | g :: rest, acc, h => by
    rcases gamesFold_mem rest (collectGamePlayers target acc g) h with h' | h'
    · rcases collectGamePlayers_mem h' with h'' | h''
      · exact Or.inl h''
      · right
        simp [List.any_cons, h'']
    · right
      simp [List.any_cons, h']

theorem seriesPlayers_mem {target name : String} {st : SeriesState}
    (h : name ∈ seriesPlayers target st) :
    st.games.any (gameHasPlayer target name) = true := by
  rcases gamesFold_mem st.games [] h with h' | h'
  · simp at h'
  · exact h'

theorem gamesFold_nodup {target : String} :
    ∀ (gs : List Game) (acc : List String), acc.Nodup →
      (gs.foldl (collectGamePlayers target) acc).Nodup
  | [], _, h => h
  | _ :: rest, _, h => gamesFold_nodup rest _ (collectGamePlayers_nodup h)

theorem seriesPlayers_nodup {target : String} {st : SeriesState} :
    (seriesPlayers target st).Nodup :=
  gamesFold_nodup st.games [] List.nodup_nil

/-! ## Series-played counting (C5) -/

theorem alGetD_count_fold (name : String) :
    ∀ (l : List String) (c : List (String × Nat)),
      alGetD (l.foldl (fun c n => alMod c n 0 (· + 1)) c) name 0 =
        alGetD c name 0 + l.count name
  | [], c => by simp
  | n :: rest, c => by
    rw [List.foldl_cons, alGetD_count_fold name rest _]
    by_cases hn : n = name
    · subst hn
      rw [alGetD_alMod_self, List.count_cons]
      simp
      omega
    · have hn' : name ≠ n := fun hh => hn hh.symm
      rw [alGetD_alMod_ne _ _ _ _ _ _ hn', List.count_cons]
      have hb : (name == n) = false := beq_eq_false_iff_ne.mpr hn'
      simp [hb, hn]

theorem gameLevelStep_psc (target : String) (sp : List String) (acc : WeaponsAcc)
    (g : Game) :
    (gameLevelStep target sp acc g).player_series_count = acc.player_series_count := by
  unfold gameLevelStep
  refine foldl_preserve
    (fun a => a.player_series_count = acc.player_series_count)
    g.teams acc (fun a t _ ha => ?_) rfl
  split
  · next n hn =>
    split
    · refine foldl_preserve
        (fun a'' => a''.player_series_count = acc.player_series_count)
        _ a (fun a' p _ ha' => ?_) ha
      split
      · split
        · exact ha'
        · exact ha'
      · exact ha'
    · exact ha
  · exact ha

theorem segLevelStep_psc (target : String) (sp : List String) (acc : WeaponsAcc)
    (g : Game) :
    (segLevelStep target sp acc g).player_series_count = acc.player_series_count := by
  unfold segLevelStep
  refine foldl_preserve
    (fun a => a.player_series_count = acc.player_series_count)
    g.segments acc (fun a seg _ ha => ?_) rfl
  refine foldl_preserve
    (fun a'' => a''.player_series_count = acc.player_series_count)
    seg.teams a (fun a' t _ ha' => ?_) ha
  split
  · next n hn =>
    split
    · refine foldl_preserve
        (fun a0 => a0.player_series_count = acc.player_series_count)
        _ a' (fun a'' p _ ha'' => ?_) ha'
      repeat' split
      all_goals simp_all
    · exact ha'
  · exact ha'

theorem weaponsGameStep_psc (target : String) (sp : List String) (acc : WeaponsAcc)
    (g : Game) :
    (weaponsGameStep target sp acc g).player_series_count = acc.player_series_count := by
  unfold weaponsGameStep
  rw [segLevelStep_psc, gameLevelStep_psc]

theorem weaponsSeriesStep_count (target name : String) (acc : WeaponsAcc)
    (s : SeriesRecord) :
    alGetD (weaponsSeriesStep target acc s).player_series_count name 0 ≤
      alGetD acc.player_series_count name 0 +
        (if seriesHasPlayer target name s then 1 else 0) := by
  by_cases hv : isVal s
  · rcases s with ⟨_ | st⟩
    · simp [isVal] at hv
    · by_cases hg : st.games.isEmpty
      · simp [weaponsSeriesStep, hv, hg]
      · have hfold : ∀ (gs : List Game) (a : WeaponsAcc),
            (List.foldl (weaponsGameStep target (seriesPlayers target st)) a
              gs).player_series_count = a.player_series_count := by
          intro gs
          induction gs with
          | nil => intro a; rfl
          | cons g rest ih =>
            intro a
            rw [List.foldl_cons, ih, weaponsGameStep_psc]
        rw [weaponsSeriesStep]
        simp only [hv, if_true, hg, if_false, Bool.false_eq_true]
        rw [hfold]
        simp only []
        rw [alGetD_count_fold]
        by_cases hm : name ∈ seriesPlayers target st
        · have h1 : (seriesPlayers target st).count name = 1 :=
            List.count_eq_one_of_mem seriesPlayers_nodup hm
          have hsp : seriesHasPlayer target name ⟨some st⟩ = true := by
            simp only [seriesHasPlayer]
            exact seriesPlayers_mem hm
          rw [h1, hsp]
          simp
        · have h0 : (seriesPlayers target st).count name = 0 :=
            List.count_eq_zero.mpr hm
          rw [h0]
          simp
  · simp [weaponsSeriesStep, hv]

theorem weaponsFold_count (target name : String) :
    ∀ (l : List SeriesRecord) (acc : WeaponsAcc),
      alGetD (l.foldl (weaponsSeriesStep target) acc).player_series_count name 0 ≤
        alGetD acc.player_series_count name 0 +
          l.countP (seriesHasPlayer target name)
  | [], acc => by simp
  | s :: rest, acc => by
    have ih := weaponsFold_count target name rest (weaponsSeriesStep target acc s)
    have hs := weaponsSeriesStep_count target name acc s
    rw [List.foldl_cons, List.countP_cons]
    by_cases hc : seriesHasPlayer target name s = true
    · simp [hc] at hs ⊢
      omega
    · have hc' : seriesHasPlayer target name s = false := by
        simpa using hc
      simp [hc'] at hs ⊢
      omega

/-- C5: every player's reported series-played count never exceeds the
number of series of the batch in which the player's name appears on the
scouted team's roster in some game-level or segment-level team; within a
single series the count rises by at most one per player. -/
theorem c5_series_played_bound (batch : List SeriesRecord) (target name : String)
    (k : Nat)
    (h : (alGet (analyze_player_weapons batch target).player_analysis name).map
      (fun st => st.series_played) = some k) :
    k ≤ batch.countP (seriesHasPlayer target name) := by
  rcases hget : alGet (analyze_player_weapons batch target).player_analysis name with
    _ | st
  · rw [hget] at h
    simp at h
  · rw [hget] at h
    simp only [Option.map_some', Option.some.injEq] at h
    obtain ⟨wc, rfl, _⟩ := alGet_weapons_analysis _ _
      (by simpa [analyze_player_weapons] using hget)
    have hb := weaponsFold_count target name batch ⟨[], [], [], []⟩
    simp only [mkPlayerStats] at h
    rw [← h]
    simpa [alGetD, alGet] using hb

/-- Witness for C5: in Scenario A, `aspas` has 1 series played, bounded by
the 1 series of the batch in which `aspas` appears on the scouted roster. -/
theorem c5_series_played_bound_witness :
    1 ≤ scnA.countP (seriesHasPlayer "LOUD" "aspas") :=
  c5_series_played_bound scnA "LOUD" "aspas" 1 (by with_unfolding_all decide)

/-! ## Weapon-kill attribution (C10) -/

theorem addOneWeaponKill_other {name pname : String}
    {pw : List (String × List (String × Nat))} {wk : WeaponKill}
    (h : name ≠ pname) :
    alGet (addOneWeaponKill pname pw wk) name = alGet pw name := by
  unfold addOneWeaponKill
  split
  · split
    · exact alGet_alMod_ne _ _ _ _ _ h
    · rfl
  · rfl

theorem addWeaponKills_other {name pname : String} (h : name ≠ pname) :
    ∀ (wks : List WeaponKill) (pw : List (String × List (String × Nat))),
      alGet (addWeaponKills pw pname wks) name = alGet pw name
  | [], _ => rfl
  | wk :: rest, pw => by
    have hr := addWeaponKills_other h rest (addOneWeaponKill pname pw wk)
    unfold addWeaponKills at hr ⊢
    rw [List.foldl_cons, hr, addOneWeaponKill_other h]

theorem addOneWeaponKill_not_qual {pname : String}
    {pw : List (String × List (String × Nat))} {wk : WeaponKill}
    (h : wkQualifies wk = false) : addOneWeaponKill pname pw wk = pw := by
  unfold addOneWeaponKill
  split
  · next wn hwn =>
    have h' : (pyTruthy wn && wk.count != 0) = false := by
      simpa [wkQualifies, hwn] using h
    simp [h']
  · rfl

theorem addWeaponKills_not_qual {pname : String} :
    ∀ (wks : List WeaponKill) (pw : List (String × List (String × Nat))),
      wks.any wkQualifies = false → addWeaponKills pw pname wks = pw
  | [], _, _ => rfl
  | wk :: rest, pw, h => by
    have h1 : wkQualifies wk = false := by
      simpa using List.any_eq_false.mp h wk (List.mem_cons_self _ _)
    have h2 : rest.any wkQualifies = false := by
      rw [List.any_eq_false] at h ⊢
      exact fun x hx => h x (List.mem_cons_of_mem _ hx)
    have hr := @addWeaponKills_not_qual pname rest pw h2
    unfold addWeaponKills at hr ⊢
    rw [List.foldl_cons, addOneWeaponKill_not_qual h1, hr]

theorem gameLevelStep_pw_none (target name : String) (sp : List String)
    (acc : WeaponsAcc) (g : Game)
    (hg : g.teams.any (teamAttributesWK target name) = false)
    (h : alGet acc.player_weapons name = none) :
    alGet (gameLevelStep target sp acc g).player_weapons name = none := by
  unfold gameLevelStep
  refine foldl_preserve (fun a => alGet a.player_weapons name = none)
    g.teams acc (fun a t ht ha => ?_) h
  have hteam : teamAttributesWK target name t = false := by
    simpa using List.any_eq_false.mp hg t ht
  split
  · next n hn =>
    split
    · next hm =>
      have hplayers : ∀ p ∈ t.players.getD [], playerHasQualifyingWK name p = false := by
        intro p hp
        have hany : (t.players.getD []).any (playerHasQualifyingWK name) = false := by
          simpa [teamAttributesWK, hn, hm] using hteam
        simpa using List.any_eq_false.mp hany p hp
      refine foldl_preserve (fun a0 => alGet a0.player_weapons name = none)
        _ a (fun a' p hp ha' => ?_) ha
      have hq := hplayers p hp
      split
      · next hsp =>
        split
        · next wks hwk =>
          by_cases hpn : p.name = name
          · have hnq : wks.any wkQualifies = false := by
              simpa [playerHasQualifyingWK, hpn, hwk] using hq
            simpa [addWeaponKills_not_qual wks _ hnq] using ha'
          · have hpn' : name ≠ p.name := fun hh => hpn hh.symm
            simpa [addWeaponKills_other hpn' wks _] using ha'
        · exact ha'
      · exact ha'
    · exact ha
  · exact ha

theorem segLevelStep_pw_none (target name : String) (sp : List String)
    (acc : WeaponsAcc) (g : Game)
    (hg : g.segments.any
      (fun seg => seg.teams.any (teamAttributesWK target name)) = false)
    (h : alGet acc.player_weapons name = none) :
    alGet (segLevelStep target sp acc g).player_weapons name = none := by
  unfold segLevelStep
  refine foldl_preserve (fun a => alGet a.player_weapons name = none)
    g.segments acc (fun a seg hseg ha => ?_) h
  have hseg' : seg.teams.any (teamAttributesWK target name) = false := by
    simpa using List.any_eq_false.mp hg seg hseg
  refine foldl_preserve (fun a0 => alGet a0.player_weapons name = none)
    seg.teams a (fun a' t ht ha' => ?_) ha
  have hteam : teamAttributesWK target name t = false := by
    simpa using List.any_eq_false.mp hseg' t ht
  split
  · next n hn =>
    split
    · next hm =>
      have hplayers : ∀ p ∈ t.players.getD [], playerHasQualifyingWK name p = false := by
        intro p hp
        have hany : (t.players.getD []).any (playerHasQualifyingWK name) = false := by
          simpa [teamAttributesWK, hn, hm] using hteam
        simpa using List.any_eq_false.mp hany p hp
      refine foldl_preserve (fun a0 => alGet a0.player_weapons name = none)
        _ a' (fun a'' p hp ha'' => ?_) ha'
      have hq := hplayers p hp
      split
      · next hsp =>
        by_cases hpn : p.name = name
        · have hnq : (p.weapon_kills.getD []).any wkQualifies = false := by
            simpa [playerHasQualifyingWK, hpn] using hq
          rcases hwk : p.weapon_kills with _ | wks <;>
            rcases hsd : segSide t with _ | sd <;>
            rcases hk : p.kills with _ | k <;>
            rcases hdd : p.damage_dealt with _ | dd <;>
            simp_all [addWeaponKills_not_qual]
        · have hpn' : name ≠ p.name := fun hh => hpn hh.symm
          rcases hwk : p.weapon_kills with _ | wks <;>
            rcases hsd : segSide t with _ | sd <;>
            rcases hk : p.kills with _ | k <;>
            rcases hdd : p.damage_dealt with _ | dd <;>
            simp_all [addWeaponKills_other hpn']
      · exact ha''
    · exact ha'
  · exact ha'

theorem weaponsGameStep_pw_none (target name : String) (sp : List String)
    (acc : WeaponsAcc) (g : Game)
    (hg : gameAttributesWK target name g = false)
    (h : alGet acc.player_weapons name = none) :
    alGet (weaponsGameStep target sp acc g).player_weapons name = none := by
  have h1 : g.teams.any (teamAttributesWK target name) = false := by
    have := hg
    unfold gameAttributesWK at this
    exact (Bool.or_eq_false_iff.mp this).1
  have h2 : g.segments.any
      (fun seg => seg.teams.any (teamAttributesWK target name)) = false := by
    have := hg
    unfold gameAttributesWK at this
    exact (Bool.or_eq_false_iff.mp this).2
  unfold weaponsGameStep
  exact segLevelStep_pw_none target name sp _ g h2
    (gameLevelStep_pw_none target name sp acc g h1 h)

theorem weaponsSeriesStep_pw_none (target name : String) (acc : WeaponsAcc)
    (s : SeriesRecord)
    (hs : (isVal s &&
      (match s.series_state with
       | none => false
       | some st => !st.games.isEmpty &&
           st.games.any (gameAttributesWK target name))) = false)
    (h : alGet acc.player_weapons name = none) :
    alGet (weaponsSeriesStep target acc s).player_weapons name = none := by
  by_cases hv : isVal s = true
  · rcases s with ⟨_ | st⟩
    · simp [isVal] at hv
    · by_cases hgames : st.games.isEmpty
      · simp [weaponsSeriesStep, hv, hgames, h]
      · have hs' : (isVal (⟨some st⟩ : SeriesRecord) &&
            (!st.games.isEmpty && st.games.any (gameAttributesWK target name))) =
              false := by
          simpa using hs
        rw [hv, Bool.true_and] at hs'
        have hany : st.games.any (gameAttributesWK target name) = false := by
          rcases Bool.and_eq_false_iff.mp hs' with h' | h'
          · simp at h'
            exact absurd (List.isEmpty_iff.mpr h') hgames
          · exact h'
        rw [weaponsSeriesStep]
        simp only [hv, if_true, hgames, Bool.false_eq_true, if_false]
        refine @foldl_preserve WeaponsAcc Game
          (fun a => alGet a.player_weapons name = none)
          (weaponsGameStep target (seriesPlayers target st))
          st.games _
          (fun a g hgm ha => weaponsGameStep_pw_none target name _ a g
            (by simpa using List.any_eq_false.mp hany g hgm) ha)
          (by simpa using h)
  · simp [weaponsSeriesStep, (by simpa using hv : isVal s = false), h]

theorem weaponsFold_pw_none (target name : String) :
    ∀ (l : List SeriesRecord) (acc : WeaponsAcc),
      hasQualifyingWK target name l = false →
      alGet acc.player_weapons name = none →
      alGet (l.foldl (weaponsSeriesStep target) acc).player_weapons name = none
  | [], _, _, h => h
  | s :: rest, acc, hq, h => by
    have hhead := List.any_eq_false.mp hq s (List.mem_cons_self _ _)
    have hrest : hasQualifyingWK target name rest = false := by
      rw [hasQualifyingWK, List.any_eq_false]
      intro x hx
      exact List.any_eq_false.mp hq x (List.mem_cons_of_mem _ hx)
    rw [List.foldl_cons]
    exact weaponsFold_pw_none target name rest _ hrest
      (weaponsSeriesStep_pw_none target name acc s (by simpa using hhead) h)

theorem alGet_weapons_analysis_none (acc : WeaponsAcc) :
    ∀ (pw : List (String × List (String × Nat))) {name : String},
      alGet pw name = none →
      alGet (pw.filterMap (fun p =>
        if ctrTotal p.2 > 0 then some (p.1, mkPlayerStats acc p.1 p.2) else none))
        name = none
  | [], _, _ => rfl
  | (k, v) :: rest, name, h => by
    have hk : ¬ k = name := by
      intro hh
      rw [alGet, if_pos hh] at h
      exact Option.some_ne_none _ h
    have hr : alGet rest name = none := by
      rwa [alGet, if_neg hk] at h
    rw [List.filterMap_cons]
    split
    · exact alGet_weapons_analysis_none acc rest hr
    · next b heq =>
      have hb : b.1 = k := by
        by_cases hc : ctrTotal (k, v).2 > 0
        · rw [if_pos hc] at heq
          cases heq
          rfl
        · rw [if_neg hc] at heq
          cases heq
      rw [alGet, if_neg (by rw [hb]; exact hk)]
      exact alGet_weapons_analysis_none acc rest hr

/-- C10: a player appears in the weapon analyzer's per-player output only
if at least one weapon-kill entry with a truthy weapon name and a nonzero
count is attributed to them on a scouted-team roster of a processed
series; a scouted-team player with per-round kills, side and damage data
but no weapon-kill entries anywhere (batch `cbC10`) is entirely absent
from the output, side and damage statistics included. -/
theorem c10_requires_weapon_kills :
    (∀ (batch : List SeriesRecord) (target name : String),
      (alGet (analyze_player_weapons batch target).player_analysis name).isSome = true →
      hasQualifyingWK target name batch = true) ∧
    (alGet (analyze_player_weapons cbC10 "LOUD").player_analysis "q" = none ∧
      (analyze_player_weapons cbC10 "LOUD").total_players_analyzed = 0) := by
  constructor
  · intro batch target name h
    by_cases hq : hasQualifyingWK target name batch = true
    · exact hq
    · exfalso
      have hq' : hasQualifyingWK target name batch = false := by simpa using hq
      have hnone := alGet_weapons_analysis_none
        (batch.foldl (weaponsSeriesStep target) ⟨[], [], [], []⟩)
        (batch.foldl (weaponsSeriesStep target) ⟨[], [], [], []⟩).player_weapons
        (weaponsFold_pw_none target name batch ⟨[], [], [], []⟩ hq' rfl)
      rw [show (analyze_player_weapons batch target).player_analysis =
        ((batch.foldl (weaponsSeriesStep target) ⟨[], [], [], []⟩).player_weapons.filterMap
          (fun p => if ctrTotal p.2 > 0 then
            some (p.1, mkPlayerStats
              (batch.foldl (weaponsSeriesStep target) ⟨[], [], [], []⟩) p.1 p.2)
          else none)) from rfl, hnone] at h
      simp at h
  · exact ⟨by with_unfolding_all decide, by with_unfolding_all decide⟩

/-- Witness for C10: in Scenario A, `aspas` appears in the output, and
indeed a qualifying weapon-kill entry is attributed to `aspas`. -/
theorem c10_requires_weapon_kills_witness :
    hasQualifyingWK "LOUD" "aspas" scnA = true :=
  c10_requires_weapon_kills.1 scnA "LOUD" "aspas" (by with_unfolding_all decide)

end Scout

